import Mathlib

/-!
Verification of the threat-telemetry-hub event pipeline and correlation
engine, shallowly embedded from the Go sources:
  internal/correlation/correlator.go
  internal/ai/provider.go
  cmd/hub/main.go

Time stamps and durations are modeled as integers (seconds); Go `float64`
risk scores are modeled as rationals; the Go `map[string]interface{}`
attribute mapping of an event is modeled as an association list of string
attributes (the correlator only ever reads attributes whose dynamic type
is `string`, so a lookup that returns a value models a successful
`.(string)` assertion and an absent binding models both a missing key and
a non-string value); SHA-256 is kept as an explicit function parameter
`hash`, with the exact byte stream fed to it reproduced.
-/

namespace ThreatHub

/-- Attribute mapping of an event (`Data map[string]interface{}`), restricted
to its string-valued bindings, which are the only ones the correlator reads. -/
abbrev AttrMap := List (String × String)

/-- Lookup of a string attribute: models `event.Data[k].(string)` succeeding. -/
def lookupAttr (data : AttrMap) (k : String) : Option String :=
  data.lookup k

/-- `NormalizedEvent` from internal/normalization (the fields the
correlator and the pipeline read). -/
structure NormalizedEvent where
  id : String
  timestamp : Int
  severity : Int
  data : AttrMap
deriving DecidableEq, Repr

/-- `CorrelationGroup` from internal/correlation/correlator.go. -/
structure CorrelationGroup where
  id : String
  events : List NormalizedEvent
  createdAt : Int
  updatedAt : Int
  keys : List String
deriving DecidableEq, Repr

/-- `Correlator` state: the group table (Go map modeled as a list whose
order stands for the unspecified map iteration order) and the TTL. -/
structure Correlator where
  correlations : List CorrelationGroup
  ttl : Int
deriving DecidableEq, Repr

/-- 1 hour in seconds: the TTL set by `NewCorrelator`. -/
def oneHour : Int := 3600

/-- `NewCorrelator`: empty table, TTL of one hour. -/
def NewCorrelator : Correlator :=
  { correlations := [], ttl := oneHour }

/-- `extractCorrelationKeys` from correlator.go: for each of the five
attributes `source_ip`, `user`, `hostname`, `file_hash`, `domain`, in this
order, a present non-empty string value contributes one `kind:value` key. -/
def extractCorrelationKeys (event : NormalizedEvent) : List String :=
  (match lookupAttr event.data "source_ip" with
   | some ip => if ip ≠ "" then ["ip:" ++ ip] else []
   | none => []) ++
  (match lookupAttr event.data "user" with
   | some user => if user ≠ "" then ["user:" ++ user] else []
   | none => []) ++
  (match lookupAttr event.data "hostname" with
   | some host => if host ≠ "" then ["host:" ++ host] else []
   | none => []) ++
  (match lookupAttr event.data "file_hash" with
   | some hsh => if hsh ≠ "" then ["hash:" ++ hsh] else []
   | none => []) ++
  (match lookupAttr event.data "domain" with
   | some domain => if domain ≠ "" then ["domain:" ++ domain] else []
   | none => [])

/-- `matchesGroup` from correlator.go: true iff some extracted key of the
event equals some key of the group. -/
def matchesGroup (keys : List String) (group : CorrelationGroup) : Bool :=
  keys.any fun key => group.keys.any fun groupKey => key == groupKey

/-- The byte stream `generateCorrelationID` feeds to SHA-256: every key in
order, then `time.Now().String()` (the `nonce`). -/
def hashInput (keys : List String) (nonce : String) : String :=
  String.join keys ++ nonce

/-- `generateCorrelationID` from correlator.go: 16 hex characters of the
SHA-256 of the keys followed by the wall-clock nonce. `hash` stands for
hex-encoded SHA-256. -/
def generateCorrelationID (hash : String → String) (keys : List String)
    (nonce : String) : String :=
  (hash (hashInput keys nonce)).take 16

/-- The mutation `Correlate` applies to a matched group: append the event,
bump `UpdatedAt`; `ID`, `CreatedAt` and `Keys` are untouched. -/
def appendToGroup (group : CorrelationGroup) (event : NormalizedEvent)
    (now : Int) : CorrelationGroup :=
  { group with events := group.events ++ [event], updatedAt := now }

/-- The fresh group `Correlate` inserts when no existing group matches. -/
def newGroup (groupID : String) (event : NormalizedEvent) (now : Int)
    (keys : List String) : CorrelationGroup :=
  { id := groupID, events := [event], createdAt := now, updatedAt := now,
    keys := keys }

/-- The `for _, group := range c.correlations` loop of `Correlate`: scan the
table, and at the FIRST matching group append the event there and stop,
returning that group's id and the updated table; `none` when no group
matches. -/
def correlateScan (event : NormalizedEvent) (now : Int) (keys : List String) :
    List CorrelationGroup → Option (String × List CorrelationGroup)
  | [] => none
  | group :: rest =>
    if matchesGroup keys group then
      some (group.id, appendToGroup group event now :: rest)
    else
      match correlateScan event now keys rest with
      | some (id, rest') => some (id, group :: rest')
      | none => none

/-- `Correlate` from correlator.go: extract the event's keys, append to the
first matching group, otherwise create a new group keyed by the event's
keys with a freshly generated id. Returns the group id and the new state. -/
def Correlate (hash : String → String) (now : Int) (nonce : String)
    (c : Correlator) (event : NormalizedEvent) : String × Correlator :=
  let keys := extractCorrelationKeys event
  match correlateScan event now keys c.correlations with
  | some (id, table) => (id, { c with correlations := table })
  | none =>
    let groupID := generateCorrelationID hash keys nonce
    (groupID,
     { c with correlations :=
         c.correlations ++ [newGroup groupID event now keys] })

/-- One pass of the `cleanup` sweep at time `now`: delete every group whose
last update lies more than `ttl` in the past, keep every other group
unchanged. -/
def cleanupSweep (now : Int) (c : Correlator) : Correlator :=
  { c with correlations :=
      c.correlations.filter fun group => ¬ (now - group.updatedAt > c.ttl) }

/-- `GetGroup` from correlator.go: lookup of a group by id. -/
def GetGroup (c : Correlator) (id : String) : Option CorrelationGroup :=
  c.correlations.find? fun group => group.id == id

/-- `GetActiveGroups` from correlator.go: a snapshot list of every group in
the table. -/
def GetActiveGroups (c : Correlator) : List CorrelationGroup :=
  c.correlations

/-- One `Correlate` invocation of a run: the event together with the clock
reading and the wall-clock nonce of that call. -/
structure CorrelateCall where
  event : NormalizedEvent
  now : Int
  nonce : String
deriving DecidableEq, Repr

/-- Sequential execution of a list of `Correlate` calls (the coarse table
lock serializes them; the list order is the serialization order). -/
def runCorrelate (hash : String → String) (c : Correlator) :
    List CorrelateCall → Correlator
  | [] => c
  | call :: rest =>
      runCorrelate hash (Correlate hash call.now call.nonce c call.event).2 rest

/-- All member events of all groups of the table, in table order. -/
def allMembers (c : Correlator) : List NormalizedEvent :=
  (c.correlations.map CorrelationGroup.events).flatten

/-- `RawEvent` from internal/ingestion/manager.go. -/
structure RawEvent where
  id : String
  timestamp : Int
  source : String
  sourceType : String
  data : AttrMap
deriving DecidableEq, Repr

/-- `RiskAnalysis` from internal/ai/provider.go; `float64` scores are
modeled as rationals. -/
structure RiskAnalysis where
  riskScore : ℚ
  riskLevel : String
  summary : String
  indicators : List String
  mitreTactics : List String
  mitreTechniques : List String
  recommendations : List String
  confidence : ℚ
  rawContext : String
deriving DecidableEq, Repr

/-- `fallbackAnalysis` from internal/ai/provider.go: the fixed analysis
substituted when the provider's response does not parse. -/
def fallbackAnalysis (event : RawEvent) : RiskAnalysis :=
  { riskScore := 1/2
    riskLevel := "medium"
    summary := "Event from " ++ event.source ++ " requires manual review"
    indicators := []
    mitreTactics := []
    mitreTechniques := []
    recommendations := ["Review event manually", "Check for related events"]
    confidence := 0
    rawContext := "AI analysis unavailable - fallback applied" }

/-- Outcome of the external provider call plus response parsing, the two
points where `AnalyzeRawEvent` can fail: the `provider.Analyze` call
errors, or it returns content that `parseRiskAnalysis` rejects, or it
returns content that parses to a judgment. -/
inductive AIOutcome where
  | callFailed
  | parseFailed
  | parsed (analysis : RiskAnalysis)
deriving DecidableEq, Repr

/-- `AnalyzeRawEvent` from internal/ai/provider.go: a failed provider call
propagates as an error; an unparsable response is replaced by
`fallbackAnalysis`; a parsed response is returned as is. -/
def AnalyzeRawEvent (outcome : AIOutcome) (event : RawEvent) :
    Except Unit RiskAnalysis :=
  match outcome with
  | .callFailed => .error ()
  | .parseFailed => .ok (fallbackAnalysis event)
  | .parsed analysis => .ok analysis

/-- `calculateRisk` from cmd/hub/main.go: pass the judgment's score through
and bucket it with fixed thresholds; a missing judgment gives score 0 and
level unknown. -/
def calculateRisk (aiAnalysis : Option RiskAnalysis) : ℚ × String :=
  match aiAnalysis with
  | none => (0, "unknown")
  | some analysis =>
    let score := analysis.riskScore
    let level :=
      if score ≥ 9/10 then "critical"
      else if score ≥ 7/10 then "high"
      else if score ≥ 4/10 then "medium"
      else if score ≥ 1/10 then "low"
      else "info"
    (score, level)

/-- `ProcessedEvent` from cmd/hub/main.go. -/
structure ProcessedEvent where
  id : String
  timestamp : Int
  source : String
  sourceType : String
  normalizedData : AttrMap
  rawData : AttrMap
  aiAnalysis : Option RiskAnalysis
  enrichments : List (String × String)
  correlationID : String
  riskScore : ℚ
  riskLevel : String
  mitreTactics : List String
  mitreTechniques : List String
deriving DecidableEq, Repr

/-- `processEvent` from cmd/hub/main.go. The external stage results are
passed in: `aiOutcome` for Step 1 (AI analysis of the raw event, soft
failure), `normResult` for Step 2 (normalization, fatal failure: the
function returns with no event emitted and the correlator untouched),
`enrichments` for Step 3 (best-effort). Step 4 runs `Correlate` on the
shared correlator state. Returns the emitted event, if any, and the new
correlator state. -/
def processEvent (hash : String → String) (now : Int) (nonce : String)
    (aiOutcome : AIOutcome) (normResult : Except String NormalizedEvent)
    (enrichments : List (String × String)) (c : Correlator)
    (raw : RawEvent) : Option ProcessedEvent × Correlator :=
  let aiAnalysis : Option RiskAnalysis :=
    match AnalyzeRawEvent aiOutcome raw with
    | .error _ => none
    | .ok analysis => some analysis
  match normResult with
  | .error _ => (none, c)
  | .ok normalized =>
    let result := Correlate hash now nonce c normalized
    let risk := calculateRisk aiAnalysis
    (some
      { id := raw.id
        timestamp := raw.timestamp
        source := raw.source
        sourceType := raw.sourceType
        normalizedData := normalized.data
        rawData := raw.data
        aiAnalysis := aiAnalysis
        enrichments := enrichments
        correlationID := result.1
        riskScore := risk.1
        riskLevel := risk.2
        mitreTactics :=
          match aiAnalysis with
          | some analysis => analysis.mitreTactics
          | none => []
        mitreTechniques :=
          match aiAnalysis with
          | some analysis => analysis.mitreTechniques
          | none => [] },
     result.2)

/-- The ordered attribute table of §4.2 of the design: attribute name and
key kind, in the fixed extraction order. -/
def correlationAttrs : List (String × String) :=
  [("source_ip", "ip"), ("user", "user"), ("hostname", "host"),
   ("file_hash", "hash"), ("domain", "domain")]

/-- Key extraction as the spec words it: walk the fixed, ordered attribute
table; each present, non-empty attribute yields one `kind:value` key;
absent attributes yield no key, and nothing else is produced. -/
def specExtractCorrelationKeys (event : NormalizedEvent) : List String :=
  correlationAttrs.filterMap fun p =>
    match lookupAttr event.data p.1 with
    | some v => if v ≠ "" then some (p.2 ++ ":" ++ v) else none
    | none => none

/-- A concrete judgment used to exercise `calculateRisk` at a given score. -/
def mkJudgment (q : ℚ) : RiskAnalysis :=
  { riskScore := q, riskLevel := "", summary := "", indicators := [],
    mitreTactics := [], mitreTechniques := [], recommendations := [],
    confidence := 0, rawContext := "" }

/-- Invariant of every reachable group: it has a founding member (the head
of its append-only member list) and its key set is exactly the keys
extracted from that founding member. -/
def KeysInv (g : CorrelationGroup) : Prop :=
  g.events ≠ [] ∧
  ∀ e, g.events.head? = some e → g.keys = extractCorrelationKeys e

/-- A concrete stand-in for the hex-encoded SHA-256 function, used to run
the correlator on concrete inputs (the claims settled on concrete runs do
not depend on which hash function is plugged in). -/
def hashId : String → String := fun s => s

/-- Event 1 of the spec's end-to-end scenario: attribute `source_ip=10.0.0.5`. -/
def evIpOnly : NormalizedEvent :=
  { id := "A", timestamp := 0, severity := 0,
    data := [("source_ip", "10.0.0.5")] }

/-- Event 2 of the spec's end-to-end scenario: attributes `user=alice`,
`source_ip=10.0.0.5`. -/
def evUserIp : NormalizedEvent :=
  { id := "B", timestamp := 0, severity := 0,
    data := [("user", "alice"), ("source_ip", "10.0.0.5")] }

/-- Event 3 of the spec's end-to-end scenario: attribute `user=alice`. -/
def evUserOnly : NormalizedEvent :=
  { id := "C", timestamp := 0, severity := 0, data := [("user", "alice")] }

/-- An event carrying only `hostname=h1`. -/
def evHostOnly : NormalizedEvent :=
  { id := "E", timestamp := 0, severity := 0, data := [("hostname", "h1")] }

/-- An event carrying `source_ip=1.2.3.4` and `hostname=h1`. -/
def evHostIp : NormalizedEvent :=
  { id := "F", timestamp := 0, severity := 0,
    data := [("source_ip", "1.2.3.4"), ("hostname", "h1")] }

/-- An event carrying only `source_ip=1.2.3.4`. -/
def evIpOther : NormalizedEvent :=
  { id := "G", timestamp := 0, severity := 0,
    data := [("source_ip", "1.2.3.4")] }

/-- A two-call run: `evIpOnly` then `evUserIp` (distinct events sharing
`ip:10.0.0.5`). -/
def witTrace : List CorrelateCall :=
  [{ event := evIpOnly, now := 1, nonce := "n1" },
   { event := evUserIp, now := 2, nonce := "n2" }]

/-- The single group reached by `witTrace`: founded by `evIpOnly`, joined
by `evUserIp`, keys fixed at `["ip:10.0.0.5"]`. -/
def witGroup : CorrelationGroup :=
  { id := "ip:10.0.0.5n1", events := [evIpOnly, evUserIp], createdAt := 1,
    updatedAt := 2, keys := ["ip:10.0.0.5"] }

/-- Order A, B, C of the transitivity scenario: first call. -/
def runX1 : String × Correlator := Correlate hashId 1 "n1" NewCorrelator evIpOnly

/-- Order A, B, C: second call. -/
def runX2 : String × Correlator := Correlate hashId 2 "n2" runX1.2 evUserIp

/-- Order A, B, C: third call. -/
def runX3 : String × Correlator := Correlate hashId 3 "n3" runX2.2 evUserOnly

/-- A third-event-first run: `evHostOnly`, then `evHostIp`, then `evIpOther`. -/
def runZ1 : String × Correlator := Correlate hashId 1 "n1" NewCorrelator evHostOnly

/-- Second call of the third-event-first run. -/
def runZ2 : String × Correlator := Correlate hashId 2 "n2" runZ1.2 evHostIp

/-- Third call of the third-event-first run. -/
def runZ3 : String × Correlator := Correlate hashId 3 "n3" runZ2.2 evIpOther

/-- A concrete raw event. -/
def rawSample : RawEvent :=
  { id := "r1", timestamp := 5, source := "crowdstrike", sourceType := "edr",
    data := [("source_ip", "10.0.0.5")] }

/-- The concrete raw event after normalization. -/
def normSample : NormalizedEvent :=
  { id := "r1", timestamp := 5, severity := 50,
    data := [("source_ip", "10.0.0.5")] }

theorem matchesGroup_iff {keys : List String} {g : CorrelationGroup} :
    matchesGroup keys g = true ↔ ∃ k, k ∈ keys ∧ k ∈ g.keys := by
  simp only [matchesGroup, List.any_eq_true, beq_iff_eq]
  constructor
  · rintro ⟨k, hk, g, hg, h⟩
    exact ⟨g, h ▸ hk, hg⟩
  · rintro ⟨k, hk, hg⟩
    exact ⟨k, hk, k, hg, rfl⟩

theorem newGroup_id (groupID : String) (event : NormalizedEvent) (now : Int)
    (keys : List String) : (newGroup groupID event now keys).id = groupID :=
  rfl

theorem appendToGroup_id (group : CorrelationGroup) (event : NormalizedEvent)
    (now : Int) : (appendToGroup group event now).id = group.id :=
  rfl

set_option maxHeartbeats 2000000 in
/-- Claim C6: Key extraction: `extractCorrelationKeys` produces, in the fixed
order source IP, user, hostname, file hash, domain, exactly one key
`kind:value` per attribute present with a non-empty value, no key for an
absent attribute, and no other keys — i.e. it coincides with the
spec-worded extraction over the ordered attribute table. -/
theorem extractCorrelationKeys_eq_spec (event : NormalizedEvent) :
    extractCorrelationKeys event = specExtractCorrelationKeys event := by
  simp only [specExtractCorrelationKeys, correlationAttrs, extractCorrelationKeys,
    List.filterMap_cons, List.filterMap_nil]
  rcases h1 : lookupAttr event.data "source_ip" with _ | ip <;>
    rcases h2 : lookupAttr event.data "user" with _ | user <;>
      rcases h3 : lookupAttr event.data "hostname" with _ | host <;>
        rcases h4 : lookupAttr event.data "file_hash" with _ | hsh <;>
          rcases h5 : lookupAttr event.data "domain" with _ | domain <;>
            simp only [h1, h2, h3, h4, h5] <;> (try split_ifs) <;> rfl

/-- Claim C4: Risk thresholding: `calculateRisk` passes a present judgment's
score through unchanged and buckets it as critical (≥ 0.9), high
(0.7 ≤ s < 0.9), medium (0.4 ≤ s < 0.7), low (0.1 ≤ s < 0.4), info
(s < 0.1); a missing judgment yields score 0 and the level "unknown",
which differs from "info". -/
theorem calculateRisk_thresholds :
    calculateRisk none = (0, "unknown") ∧ "unknown" ≠ "info" ∧
    ∀ j : RiskAnalysis,
      (calculateRisk (some j)).1 = j.riskScore ∧
      (j.riskScore ≥ 9/10 → (calculateRisk (some j)).2 = "critical") ∧
      (7/10 ≤ j.riskScore ∧ j.riskScore < 9/10 →
        (calculateRisk (some j)).2 = "high") ∧
      (4/10 ≤ j.riskScore ∧ j.riskScore < 7/10 →
        (calculateRisk (some j)).2 = "medium") ∧
      (1/10 ≤ j.riskScore ∧ j.riskScore < 4/10 →
        (calculateRisk (some j)).2 = "low") ∧
      (j.riskScore < 1/10 → (calculateRisk (some j)).2 = "info") := by
  refine ⟨rfl, by decide, fun j => ⟨rfl, ?_, ?_, ?_, ?_, ?_⟩⟩
  · intro h
    simp only [calculateRisk]
    split_ifs <;> first | rfl | linarith
  · rintro ⟨h1, h2⟩
    simp only [calculateRisk]
    split_ifs <;> first | rfl | linarith
  · rintro ⟨h1, h2⟩
    simp only [calculateRisk]
    split_ifs <;> first | rfl | linarith
  · rintro ⟨h1, h2⟩
    simp only [calculateRisk]
    split_ifs <;> first | rfl | linarith
  · intro h
    simp only [calculateRisk]
    split_ifs <;> first | rfl | linarith

/-- Witness for C4: the thresholds evaluated at the spec's sample scores
0.95, 0.75, 0.5, 0.15, 0.05. -/
theorem calculateRisk_thresholds_witness :
    (calculateRisk (some (mkJudgment (95/100)))).2 = "critical" ∧
    (calculateRisk (some (mkJudgment (75/100)))).2 = "high" ∧
    (calculateRisk (some (mkJudgment (5/10)))).2 = "medium" ∧
    (calculateRisk (some (mkJudgment (15/100)))).2 = "low" ∧
    (calculateRisk (some (mkJudgment (5/100)))).2 = "info" :=
  ⟨(calculateRisk_thresholds.2.2 (mkJudgment (95/100))).2.1 (by norm_num [mkJudgment]),
   (calculateRisk_thresholds.2.2 (mkJudgment (75/100))).2.2.1 (by norm_num [mkJudgment]),
   (calculateRisk_thresholds.2.2 (mkJudgment (5/10))).2.2.2.1 (by norm_num [mkJudgment]),
   (calculateRisk_thresholds.2.2 (mkJudgment (15/100))).2.2.2.2.1 (by norm_num [mkJudgment]),
   (calculateRisk_thresholds.2.2 (mkJudgment (5/100))).2.2.2.2.2 (by norm_num [mkJudgment])⟩

/-- Claim C10: A normalization failure drops the event atomically: no
`ProcessedEvent` is emitted and the correlator state is returned exactly
as it was — correlation only runs after successful normalization. -/
theorem processEvent_norm_failure (hash : String → String) (now : Int)
    (nonce : String) (aiOutcome : AIOutcome) (msg : String)
    (enrichments : List (String × String)) (c : Correlator) (raw : RawEvent) :
    processEvent hash now nonce aiOutcome (.error msg) enrichments c raw =
      (none, c) := rfl

/-- Claim C8: The cleanup sweep keeps exactly the groups whose last update is
within the TTL, each unchanged and in table order; the swept-out groups
are exactly those strictly older than the TTL, and `GetActiveGroups`
reflects the swept table; `NewCorrelator` sets the TTL to one hour. -/
theorem cleanupSweep_removes_exactly_expired (now : Int) (c : Correlator) :
    (∀ g, g ∈ (cleanupSweep now c).correlations ↔
        g ∈ c.correlations ∧ ¬ (now - g.updatedAt > c.ttl)) ∧
    List.Sublist (cleanupSweep now c).correlations c.correlations ∧
    GetActiveGroups (cleanupSweep now c) = (cleanupSweep now c).correlations ∧
    NewCorrelator.ttl = oneHour := by
  refine ⟨fun g => ?_, List.filter_sublist _, rfl, rfl⟩
  simp [cleanupSweep, List.mem_filter]

theorem correlateScan_mem (event : NormalizedEvent) (now : Int)
    (keys : List String) :
    ∀ (tbl : List CorrelationGroup) (id : String) (tbl' : List CorrelationGroup),
      correlateScan event now keys tbl = some (id, tbl') →
      ∀ g' ∈ tbl', g' ∈ tbl ∨ ∃ g, g ∈ tbl ∧ g' = appendToGroup g event now := by
  intro tbl
  induction tbl with
  | nil => intro id tbl' h; simp [correlateScan] at h
  | cons g rest ih =>
    intro id tbl' h g' hg'
    rw [correlateScan] at h
    by_cases hm : matchesGroup keys g
    · rw [if_pos hm] at h
      simp only [Option.some.injEq, Prod.mk.injEq] at h
      obtain ⟨-, rfl⟩ := h
      rcases List.mem_cons.1 hg' with rfl | hg'
      · exact Or.inr ⟨g, List.mem_cons_self g rest, rfl⟩
      · exact Or.inl (List.mem_cons_of_mem g hg')
    · rw [if_neg hm] at h
      rcases hrec : correlateScan event now keys rest with _ | ⟨id0, rest'⟩ <;>
        rw [hrec] at h
      · simp at h
      · simp only [Option.some.injEq, Prod.mk.injEq] at h
        obtain ⟨-, rfl⟩ := h
        rcases List.mem_cons.1 hg' with rfl | hg'
        · exact Or.inl (List.mem_cons_self g' rest)
        · rcases ih id0 rest' hrec g' hg' with hmem | ⟨g0, hg0, rfl⟩
          · exact Or.inl (List.mem_cons_of_mem g hmem)
          · exact Or.inr ⟨g0, List.mem_cons_of_mem g hg0, rfl⟩

theorem correlateScan_count (event : NormalizedEvent) (now : Int)
    (keys : List String) (x : NormalizedEvent) :
    ∀ (tbl : List CorrelationGroup) (id : String) (tbl' : List CorrelationGroup),
      correlateScan event now keys tbl = some (id, tbl') →
      ((tbl'.map CorrelationGroup.events).flatten).count x =
        ((tbl.map CorrelationGroup.events).flatten).count x +
          (if event = x then 1 else 0) := by
  intro tbl
  induction tbl with
  | nil => intro id tbl' h; simp [correlateScan] at h
  | cons g rest ih =>
    intro id tbl' h
    rw [correlateScan] at h
    by_cases hm : matchesGroup keys g
    · rw [if_pos hm] at h
      simp only [Option.some.injEq, Prod.mk.injEq] at h
      obtain ⟨-, rfl⟩ := h
      simp only [appendToGroup, List.map_cons, List.flatten_cons,
        List.count_append]
      simp [List.count_cons, List.count_nil]
      omega
    · rw [if_neg hm] at h
      rcases hrec : correlateScan event now keys rest with _ | ⟨id0, rest'⟩ <;>
        rw [hrec] at h
      · simp at h
      · simp only [Option.some.injEq, Prod.mk.injEq] at h
        obtain ⟨-, rfl⟩ := h
        simp only [List.map_cons, List.flatten_cons, List.count_append]
        rw [ih id0 rest' hrec]
        omega

theorem Correlate_count (hash : String → String) (now : Int) (nonce : String)
    (c : Correlator) (event x : NormalizedEvent) :
    (allMembers (Correlate hash now nonce c event).2).count x =
      (allMembers c).count x + (if event = x then 1 else 0) := by
  rcases h : correlateScan event now (extractCorrelationKeys event)
      c.correlations with _ | ⟨id, tbl'⟩
  · simp only [allMembers, Correlate, h]
    simp [newGroup, List.count_append, List.count_cons]
  · simp only [allMembers, Correlate, h]
    exact correlateScan_count event now (extractCorrelationKeys event) x
      c.correlations id tbl' h

theorem runCorrelate_count (hash : String → String) (x : NormalizedEvent) :
    ∀ (trace : List CorrelateCall) (c : Correlator),
      (allMembers (runCorrelate hash c trace)).count x =
        (allMembers c).count x + (trace.map CorrelateCall.event).count x := by
  intro trace
  induction trace with
  | nil => intro c; simp [runCorrelate]
  | cons call rest ih =>
    intro c
    rw [runCorrelate, ih, Correlate_count]
    simp [List.count_cons]
    omega

theorem countP_mem_le_flatten_count (x : NormalizedEvent) :
    ∀ tbl : List CorrelationGroup,
      tbl.countP (fun g => decide (x ∈ g.events)) ≤
        ((tbl.map CorrelationGroup.events).flatten).count x := by
  intro tbl
  induction tbl with
  | nil => simp
  | cons g rest ih =>
    rw [List.countP_cons]
    simp only [List.map_cons, List.flatten_cons, List.count_append]
    by_cases hx : x ∈ g.events
    · have h1 : 1 ≤ g.events.count x := List.one_le_count_iff.2 hx
      simp [hx]
      omega
    · simp [hx]
      omega

theorem count_member_le_flatten_count (x : NormalizedEvent) :
    ∀ (tbl : List CorrelationGroup) (g : CorrelationGroup), g ∈ tbl →
      g.events.count x ≤ ((tbl.map CorrelationGroup.events).flatten).count x := by
  intro tbl
  induction tbl with
  | nil => intro g h; simp at h
  | cons g0 rest ih =>
    intro g h
    simp only [List.map_cons, List.flatten_cons, List.count_append]
    rcases List.mem_cons.1 h with rfl | h
    · omega
    · have := ih g h
      omega

/-- Claim C7: At most one group per event: in the state reached by any
serialized sequence of `Correlate` calls on pairwise distinct events,
every event occurs at most once among all group member lists, belongs to
at most one group, and occurs at most once inside any single group. -/
theorem event_in_at_most_one_group (hash : String → String)
    (trace : List CorrelateCall) (x : NormalizedEvent)
    (h : (trace.map CorrelateCall.event).Nodup) :
    (allMembers (runCorrelate hash NewCorrelator trace)).count x ≤ 1 ∧
    (runCorrelate hash NewCorrelator trace).correlations.countP
        (fun g => decide (x ∈ g.events)) ≤ 1 ∧
    ∀ g ∈ (runCorrelate hash NewCorrelator trace).correlations,
      g.events.count x ≤ 1 := by
  have hcount := runCorrelate_count hash x trace NewCorrelator
  have h0 : (allMembers NewCorrelator).count x = 0 := rfl
  rw [h0] at hcount
  have hle : (allMembers (runCorrelate hash NewCorrelator trace)).count x ≤ 1 := by
    rw [hcount]
    simpa using List.nodup_iff_count_le_one.1 h x
  exact ⟨hle, le_trans (countP_mem_le_flatten_count x _) hle,
    fun g hg => le_trans (count_member_le_flatten_count x _ g hg) hle⟩

theorem KeysInv_appendToGroup {g : CorrelationGroup} (h : KeysInv g)
    (event : NormalizedEvent) (now : Int) :
    KeysInv (appendToGroup g event now) := by
  obtain ⟨hne, hk⟩ := h
  rcases hev : g.events with _ | ⟨e0, rest⟩
  · exact absurd hev hne
  · constructor
    · simp [appendToGroup, hev]
    · intro e he
      simp only [appendToGroup, hev, List.cons_append, List.head?_cons,
        Option.some.injEq] at he
      subst he
      exact hk e0 (by simp [hev])

theorem Correlate_preserves_KeysInv (hash : String → String) (now : Int)
    (nonce : String) (c : Correlator) (event : NormalizedEvent)
    (hc : ∀ g ∈ c.correlations, KeysInv g) :
    ∀ g' ∈ (Correlate hash now nonce c event).2.correlations, KeysInv g' := by
  intro g' hg'
  rcases h : correlateScan event now (extractCorrelationKeys event)
      c.correlations with _ | ⟨id, tbl'⟩
  · simp only [Correlate, h, List.mem_append, List.mem_singleton] at hg'
    rcases hg' with hg' | rfl
    · exact hc _ hg'
    · exact ⟨by simp [newGroup], fun e he => by
        simp only [newGroup, List.head?_cons, Option.some.injEq] at he
        simp [newGroup, he]⟩
  · simp only [Correlate, h] at hg'
    rcases correlateScan_mem event now (extractCorrelationKeys event)
        c.correlations id tbl' h g' hg' with hmem | ⟨g, hgmem, rfl⟩
    · exact hc _ hmem
    · exact KeysInv_appendToGroup (hc _ hgmem) event now

/-- Claim C1 (amended): a reachable group's key set equals the correlation
keys extracted from its FOUNDING member (the first event of its member
list), fixed at creation; appending further matching members never
extends it, so it is in general not the union of all members' keys. -/
theorem group_keys_fixed_at_creation (hash : String → String)
    (trace : List CorrelateCall) (g : CorrelationGroup)
    (hg : g ∈ (runCorrelate hash NewCorrelator trace).correlations) :
    g.events ≠ [] ∧
    ∀ e, g.events.head? = some e → g.keys = extractCorrelationKeys e := by
  have main : ∀ (tr : List CorrelateCall) (c : Correlator),
      (∀ g0 ∈ c.correlations, KeysInv g0) →
      ∀ g0 ∈ (runCorrelate hash c tr).correlations, KeysInv g0 := by
    intro tr
    induction tr with
    | nil => intro c hc; exact hc
    | cons call rest ih =>
      intro c hc
      exact ih _ (Correlate_preserves_KeysInv hash call.now call.nonce c
        call.event hc)
  exact main trace NewCorrelator (by intro g0 hg0; simp [NewCorrelator] at hg0)
    g hg

theorem Correlate_single_group (hash : String → String) (now : Int)
    (nonce : String) (G : CorrelationGroup) (t : Int)
    (event : NormalizedEvent)
    (h : matchesGroup (extractCorrelationKeys event) G = true) :
    Correlate hash now nonce { correlations := [G], ttl := t } event =
      (G.id, { correlations := [appendToGroup G event now], ttl := t }) := by
  simp only [Correlate, correlateScan, h, if_true]

set_option maxHeartbeats 1600000 in
/-- Claim C2 (amended): transitive grouping through a shared intermediate
holds when the intermediate event `b` is processed FIRST: if `a` shares a
key with `b` and `c` shares a key with `b`, then processing `b`, `a`, `c`
in that order from an empty table returns one and the same group
identifier for all three calls. (In other orders it can fail, because a
group's key set stays that of its founding event.) -/
theorem transitive_grouping_intermediate_first (hash : String → String)
    (t1 t2 t3 : Int) (n1 n2 n3 : String) (a b c : NormalizedEvent)
    (hab : ∃ k, k ∈ extractCorrelationKeys a ∧ k ∈ extractCorrelationKeys b)
    (hcb : ∃ k, k ∈ extractCorrelationKeys c ∧ k ∈ extractCorrelationKeys b) :
    (Correlate hash t2 n2 (Correlate hash t1 n1 NewCorrelator b).2 a).1 =
      (Correlate hash t1 n1 NewCorrelator b).1 ∧
    (Correlate hash t3 n3
        (Correlate hash t2 n2 (Correlate hash t1 n1 NewCorrelator b).2 a).2
        c).1 =
      (Correlate hash t1 n1 NewCorrelator b).1 := by
  obtain ⟨k1, hk1a, hk1b⟩ := hab
  obtain ⟨k2, hk2c, hk2b⟩ := hcb
  have e1 : Correlate hash t1 n1 NewCorrelator b =
      (generateCorrelationID hash (extractCorrelationKeys b) n1,
       { correlations :=
           [newGroup (generateCorrelationID hash (extractCorrelationKeys b) n1)
              b t1 (extractCorrelationKeys b)],
         ttl := oneHour }) := rfl
  have hm1 : matchesGroup (extractCorrelationKeys a)
      (newGroup (generateCorrelationID hash (extractCorrelationKeys b) n1) b t1
        (extractCorrelationKeys b)) = true :=
    matchesGroup_iff.2 ⟨k1, hk1a, hk1b⟩
  have e2 : Correlate hash t2 n2 (Correlate hash t1 n1 NewCorrelator b).2 a =
      ((newGroup (generateCorrelationID hash (extractCorrelationKeys b) n1) b
          t1 (extractCorrelationKeys b)).id,
       { correlations :=
           [appendToGroup
              (newGroup
                (generateCorrelationID hash (extractCorrelationKeys b) n1) b t1
                (extractCorrelationKeys b)) a t2],
         ttl := oneHour }) := by
    rw [e1]
    exact Correlate_single_group hash t2 n2 _ oneHour a hm1
  have hm2 : matchesGroup (extractCorrelationKeys c)
      (appendToGroup
        (newGroup (generateCorrelationID hash (extractCorrelationKeys b) n1) b
          t1 (extractCorrelationKeys b)) a t2) = true :=
    matchesGroup_iff.2 ⟨k2, hk2c, hk2b⟩
  have e3 : Correlate hash t3 n3
      (Correlate hash t2 n2 (Correlate hash t1 n1 NewCorrelator b).2 a).2 c =
      ((appendToGroup
          (newGroup (generateCorrelationID hash (extractCorrelationKeys b) n1)
            b t1 (extractCorrelationKeys b)) a t2).id,
       { correlations :=
           [appendToGroup
              (appendToGroup
                (newGroup
                  (generateCorrelationID hash (extractCorrelationKeys b) n1) b
                  t1 (extractCorrelationKeys b)) a t2) c t3],
         ttl := oneHour }) := by
    rw [e2]
    exact Correlate_single_group hash t3 n3 _ oneHour c hm2
  refine ⟨?_, ?_⟩
  · rw [e2, e1]
    dsimp only
    exact newGroup_id _ _ _ _
  · rw [e3, e1]
    dsimp only
    rw [appendToGroup_id]
    exact newGroup_id _ _ _ _

set_option maxHeartbeats 1600000 in
/-- Claim C3 (amended): pairwise key sharing implies the same group when
the two events are the only ones processed (empty table, no eviction in
between): in either order, both `Correlate` calls return the identifier
of the group founded by the first call. (With a prior third event in the
table the property can fail, since a matched group's key set does not
absorb the joining event's keys.) -/
theorem pairwise_key_share_from_empty (hash : String → String)
    (t1 t2 : Int) (n1 n2 : String) (a b : NormalizedEvent)
    (h : ∃ k, k ∈ extractCorrelationKeys a ∧ k ∈ extractCorrelationKeys b) :
    (Correlate hash t2 n2 (Correlate hash t1 n1 NewCorrelator a).2 b).1 =
      (Correlate hash t1 n1 NewCorrelator a).1 ∧
    (Correlate hash t2 n2 (Correlate hash t1 n1 NewCorrelator b).2 a).1 =
      (Correlate hash t1 n1 NewCorrelator b).1 := by
  obtain ⟨k, hka, hkb⟩ := h
  constructor
  · have e1 : Correlate hash t1 n1 NewCorrelator a =
        (generateCorrelationID hash (extractCorrelationKeys a) n1,
         { correlations :=
             [newGroup
                (generateCorrelationID hash (extractCorrelationKeys a) n1) a t1
                (extractCorrelationKeys a)],
           ttl := oneHour }) := rfl
    have hm : matchesGroup (extractCorrelationKeys b)
        (newGroup (generateCorrelationID hash (extractCorrelationKeys a) n1) a
          t1 (extractCorrelationKeys a)) = true :=
      matchesGroup_iff.2 ⟨k, hkb, hka⟩
    have e2 : Correlate hash t2 n2 (Correlate hash t1 n1 NewCorrelator a).2 b =
        ((newGroup (generateCorrelationID hash (extractCorrelationKeys a) n1) a
            t1 (extractCorrelationKeys a)).id,
         { correlations :=
             [appendToGroup
                (newGroup
                  (generateCorrelationID hash (extractCorrelationKeys a) n1) a
                  t1 (extractCorrelationKeys a)) b t2],
           ttl := oneHour }) := by
      rw [e1]
      exact Correlate_single_group hash t2 n2 _ oneHour b hm
    rw [e2, e1]
    dsimp only
    exact newGroup_id _ _ _ _
  · have e1 : Correlate hash t1 n1 NewCorrelator b =
        (generateCorrelationID hash (extractCorrelationKeys b) n1,
         { correlations :=
             [newGroup
                (generateCorrelationID hash (extractCorrelationKeys b) n1) b t1
                (extractCorrelationKeys b)],
           ttl := oneHour }) := rfl
    have hm : matchesGroup (extractCorrelationKeys a)
        (newGroup (generateCorrelationID hash (extractCorrelationKeys b) n1) b
          t1 (extractCorrelationKeys b)) = true :=
      matchesGroup_iff.2 ⟨k, hka, hkb⟩
    have e2 : Correlate hash t2 n2 (Correlate hash t1 n1 NewCorrelator b).2 a =
        ((newGroup (generateCorrelationID hash (extractCorrelationKeys b) n1) b
            t1 (extractCorrelationKeys b)).id,
         { correlations :=
             [appendToGroup
                (newGroup
                  (generateCorrelationID hash (extractCorrelationKeys b) n1) b
                  t1 (extractCorrelationKeys b)) a t2],
           ttl := oneHour }) := by
      rw [e1]
      exact Correlate_single_group hash t2 n2 _ oneHour a hm
    rw [e2, e1]
    dsimp only
    exact newGroup_id _ _ _ _

/-- Counterexample to claim C1 as stated: after the events with key sets
`{ip:10.0.0.5}` and `{user:alice, ip:10.0.0.5}` join one group, the
group's key set is still only `["ip:10.0.0.5"]` — the member key
`user:alice` never becomes part of it, so `Keys` is not the union of the
members' correlation keys. -/
theorem group_keys_not_union_of_members :
    (runCorrelate hashId NewCorrelator witTrace).correlations.map
        CorrelationGroup.keys = [["ip:10.0.0.5"]] ∧
    (runCorrelate hashId NewCorrelator witTrace).correlations.map
        CorrelationGroup.events = [[evIpOnly, evUserIp]] ∧
    "user:alice" ∈ extractCorrelationKeys evUserIp ∧
    "user:alice" ∉ ["ip:10.0.0.5"] := by decide

/-- Witness for the amended C1 at the group reached by the concrete
two-event run. -/
theorem group_keys_fixed_at_creation_witness :
    witGroup ∈ (runCorrelate hashId NewCorrelator witTrace).correlations ∧
    (witGroup.events ≠ [] ∧
     ∀ e, witGroup.events.head? = some e →
       witGroup.keys = extractCorrelationKeys e) :=
  ⟨by decide, group_keys_fixed_at_creation hashId witTrace witGroup (by decide)⟩

/-- Counterexample to claim C2 as stated: in processing order A, B, C with
A sharing `ip:10.0.0.5` with B and B sharing `user:alice` with C, the
calls for A and B return one group but the call for C returns a different
one — the three events do NOT end in one group in every order. -/
theorem transitive_grouping_order_dependent :
    ("ip:10.0.0.5" ∈ extractCorrelationKeys evIpOnly ∧
     "ip:10.0.0.5" ∈ extractCorrelationKeys evUserIp) ∧
    ("user:alice" ∈ extractCorrelationKeys evUserIp ∧
     "user:alice" ∈ extractCorrelationKeys evUserOnly) ∧
    runX2.1 = runX1.1 ∧
    runX3.1 ≠ runX1.1 ∧
    runX3.2.correlations.length = 2 := by decide

/-- Witness for the amended C2 on the spec's scenario events, the
intermediate `evUserIp` processed first. -/
theorem transitive_grouping_intermediate_first_witness :
    (∃ k, k ∈ extractCorrelationKeys evIpOnly ∧
      k ∈ extractCorrelationKeys evUserIp) ∧
    (∃ k, k ∈ extractCorrelationKeys evUserOnly ∧
      k ∈ extractCorrelationKeys evUserIp) ∧
    ((Correlate hashId 2 "n2"
        (Correlate hashId 1 "n1" NewCorrelator evUserIp).2 evIpOnly).1 =
      (Correlate hashId 1 "n1" NewCorrelator evUserIp).1 ∧
     (Correlate hashId 3 "n3"
        (Correlate hashId 2 "n2"
          (Correlate hashId 1 "n1" NewCorrelator evUserIp).2 evIpOnly).2
        evUserOnly).1 =
      (Correlate hashId 1 "n1" NewCorrelator evUserIp).1) :=
  ⟨⟨"ip:10.0.0.5", by decide, by decide⟩,
   ⟨"user:alice", by decide, by decide⟩,
   transitive_grouping_intermediate_first hashId 1 2 3 "n1" "n2" "n3"
     evIpOnly evUserIp evUserOnly
     ⟨"ip:10.0.0.5", by decide, by decide⟩
     ⟨"user:alice", by decide, by decide⟩⟩

/-- Counterexample to claim C3 as stated: `evHostIp` and `evIpOther` share
the key `ip:1.2.3.4` and are processed with no eviction in between, yet
they end in different groups, because `evHostIp` was first absorbed (via
`host:h1`) into the group founded by `evHostOnly`, whose key set does not
contain the shared ip key. -/
theorem pairwise_key_share_not_sufficient :
    ("ip:1.2.3.4" ∈ extractCorrelationKeys evHostIp ∧
     "ip:1.2.3.4" ∈ extractCorrelationKeys evIpOther) ∧
    runZ2.1 = runZ1.1 ∧
    runZ3.1 ≠ runZ2.1 := by decide

/-- Witness for the amended C3 on the concrete pair sharing `ip:10.0.0.5`. -/
theorem pairwise_key_share_from_empty_witness :
    (∃ k, k ∈ extractCorrelationKeys evIpOnly ∧
      k ∈ extractCorrelationKeys evUserIp) ∧
    ((Correlate hashId 2 "n2"
        (Correlate hashId 1 "n1" NewCorrelator evIpOnly).2 evUserIp).1 =
      (Correlate hashId 1 "n1" NewCorrelator evIpOnly).1 ∧
     (Correlate hashId 2 "n2"
        (Correlate hashId 1 "n1" NewCorrelator evUserIp).2 evIpOnly).1 =
      (Correlate hashId 1 "n1" NewCorrelator evUserIp).1) :=
  ⟨⟨"ip:10.0.0.5", by decide, by decide⟩,
   pairwise_key_share_from_empty hashId 1 2 "n1" "n2" evIpOnly evUserIp
     ⟨"ip:10.0.0.5", by decide, by decide⟩⟩

/-- Witness for C7 at the concrete two-event run and the event `evIpOnly`. -/
theorem event_in_at_most_one_group_witness :
    (witTrace.map CorrelateCall.event).Nodup ∧
    ((allMembers (runCorrelate hashId NewCorrelator witTrace)).count
        evIpOnly ≤ 1 ∧
     (runCorrelate hashId NewCorrelator witTrace).correlations.countP
        (fun g => decide (evIpOnly ∈ g.events)) ≤ 1 ∧
     ∀ g ∈ (runCorrelate hashId NewCorrelator witTrace).correlations,
       g.events.count evIpOnly ≤ 1) :=
  ⟨by decide, event_in_at_most_one_group hashId witTrace evIpOnly (by decide)⟩

/-- Claim C5 (amended): when the analysis CALL fails, the emitted event
carries the explicit "unknown" level with score 0 and no judgment; but
when the analysis response merely fails to PARSE, the pipeline
substitutes the fixed fallback judgment and the emitted event carries the
crafted default score 0.5 with level "medium". -/
theorem risk_unknown_vs_fallback (hash : String → String) (now : Int)
    (nonce : String) (enr : List (String × String)) (c : Correlator)
    (raw : RawEvent) (normEv : NormalizedEvent) :
    ((processEvent hash now nonce AIOutcome.callFailed (Except.ok normEv) enr
        c raw).1.map ProcessedEvent.riskLevel = some "unknown" ∧
     (processEvent hash now nonce AIOutcome.callFailed (Except.ok normEv) enr
        c raw).1.map ProcessedEvent.riskScore = some 0 ∧
     (processEvent hash now nonce AIOutcome.callFailed (Except.ok normEv) enr
        c raw).1.map ProcessedEvent.aiAnalysis = some none) ∧
    ((processEvent hash now nonce AIOutcome.parseFailed (Except.ok normEv) enr
        c raw).1.map ProcessedEvent.riskLevel = some "medium" ∧
     (processEvent hash now nonce AIOutcome.parseFailed (Except.ok normEv) enr
        c raw).1.map ProcessedEvent.riskScore = some (1/2) ∧
     (processEvent hash now nonce AIOutcome.parseFailed (Except.ok normEv) enr
        c raw).1.map ProcessedEvent.aiAnalysis =
       some (some (fallbackAnalysis raw))) := by
  refine ⟨⟨?_, ?_, ?_⟩, ⟨?_, ?_, ?_⟩⟩ <;>
    norm_num [processEvent, AnalyzeRawEvent, calculateRisk, fallbackAnalysis]

/-- Counterexample to claim C5 as stated: for an event whose analysis
response cannot be parsed into a judgment, the emitted event carries the
fabricated mid-range default (score 0.5, level "medium"), not the
"unknown" level the claim requires. -/
theorem fabricated_default_on_parse_failure :
    (processEvent hashId 1 "n1" AIOutcome.parseFailed (Except.ok normSample)
        [] NewCorrelator rawSample).1.map ProcessedEvent.riskLevel =
      some "medium" ∧
    (processEvent hashId 1 "n1" AIOutcome.parseFailed (Except.ok normSample)
        [] NewCorrelator rawSample).1.map ProcessedEvent.riskScore =
      some (1/2) ∧
    "medium" ≠ "unknown" := by
  refine ⟨?_, ?_, by decide⟩ <;>
    norm_num [processEvent, AnalyzeRawEvent, calculateRisk, fallbackAnalysis]

end ThreatHub
